import Mathlib

/-!
Shallow embedding of the validation core of the `validate_xml` repository
(`src/batch_validate_xml.py` and `src/validate_xml_0_0_4.py`).

The pure control flow of the three core functions (`GetFiles.get_files`,
`validate_xml`, `write_errors`) and the orchestration in
`MainApplication.validate` is translated directly from the Python source.
External collaborators are modelled as oracles:

* the `os` module: `os.path.exists` and `os.walk` become a `Filesystem`
  snapshot supplying, for a root path, the walk output — the ordered list of
  `(dirpath, filenames)` entries that `os.walk` yields (recursive, unbounded
  depth, top-down);
* the `re` module: a `Pattern` is the pattern string's observable behaviour —
  whether it compiles (`re.search` raises `re.error` on a pattern that does
  not), and, when it compiles, which candidate substrings its matcher
  accepts; `re.search` semantics (match anywhere in the string, no implicit
  anchoring) is `searchB`;
* the `lxml.etree` module: a `World` gives each path the outcome of
  `etree.parse` (a document, an `OSError`, or an `XMLSyntaxError` for
  non-well-formed content), the outcome of compiling a parsed schema
  document (`etree.XMLSchema`, `none` meaning `XMLSchemaParseError`), and
  the result of `xsd.validate` together with the `error_log` it leaves
  behind.

Console prints and `tk.StringVar.set` calls are recorded as observable
events in the state threaded through the functions.
-/

namespace VX

/-- `os.path.join(dirpath, filename)` for POSIX relative components. -/
def pathJoin (a b : String) : String := a ++ "/" ++ b

/-- The characters after the last `/` of a character list (the whole list
when it has no `/`). -/
def afterLastSlash (l : List Char) : List Char :=
  l.foldl (fun acc c => if c = '/' then [] else acc ++ [c]) []

/-- `os.path.basename`: the component after the last slash. -/
def basename (p : String) : String := String.mk (afterLastSlash p.toList)

/-- A regular-expression pattern string as observed through `re.search`:
`compiles` is whether the pattern compiles (`re.search` raises `re.error`
otherwise, independent of the subject string), and `accept` is the compiled
matcher's verdict on one candidate substring. -/
structure Pattern where
  compiles : Bool
  accept : List Char → Bool

/-- All suffixes of a list, longest first (the candidate start positions of
a substring search). -/
def suffixesL : List Char → List (List Char)
  | [] => [[]]
  | c :: cs => (c :: cs) :: suffixesL cs

/-- All prefixes of a list, shortest first (the candidate substrings at one
start position). -/
def prefixesL : List Char → List (List Char)
  | [] => [[]]
  | c :: cs => [] :: (prefixesL cs).map (fun l => c :: l)

/-- `re.search(pattern, s)` for a compiled pattern: succeeds iff the matcher
accepts some substring of `s` (the match may occur anywhere; nothing anchors
it to the whole string). -/
def searchB (accept : List Char → Bool) (s : String) : Bool :=
  (suffixesL s.toList).any (fun t => (prefixesL t).any accept)

/-- A filesystem snapshot, as observed through the `os` module by
`GetFiles.get_files`: `pathExistsB` is `os.path.exists`, and `walk` is the
ordered list of `(dirpath, filenames)` pairs that `os.walk(root)` yields
(the recursive traversal of every directory under `root`, unbounded depth;
`dirnames` is never used by the source, so it is omitted). -/
structure Filesystem where
  pathExistsB : String → Bool
  walk : String → List (String × List String)

/-- The observable state of one `GetFiles` instance plus its console:
`files` is the instance attribute `self.files`; `fnameEvents` records, in
order, every `self.fname.set(filename)` progress notification; `messages`
records the error messages printed. -/
structure GFState where
  files : List String
  fnameEvents : List String
  messages : List String
deriving Repr, DecidableEq

/-- The message printed when `re.search` raises `re.error`. -/
def invalidRegexMsg : String :=
  "Invalid regular expression. See https://docs.python.org/3/library/re.html for usage."

/-- The message printed when the batch path does not exist. -/
def doesNotExistMsg (p : String) : String := p ++ " does not exist."

/-- The inner `for filename in filenames` loop of `GetFiles.get_files`:
for each filename, first `self.fname.set(filename)`, then
`re.search(regex, filename)` — which appends `os.path.join(dirpath,
filename)` to `self.files` on a match, and raises `re.error` (the `true`
flag) if the pattern does not compile, aborting the rest of the loop. -/
def procFilenames (pat : Pattern) (dirpath : String) :
    List String → GFState → GFState × Bool
  | [], st => (st, false)
  | fn :: rest, st =>
    let st1 : GFState := { st with fnameEvents := st.fnameEvents ++ [fn] }
    if pat.compiles then
      if searchB pat.accept fn then
        procFilenames pat dirpath rest
          { st1 with files := st1.files ++ [pathJoin dirpath fn] }
      else
        procFilenames pat dirpath rest st1
    else (st1, true)

/-- The outer `for dirpath, dirnames, filenames in os.walk(...)` loop of
`GetFiles.get_files`, with the `try/except re.error` around the inner loop:
on `re.error` the invalid-regex message is printed and the walk loop is
exited (`break`). -/
def walkLoop (pat : Pattern) : List (String × List String) → GFState → GFState
  | [], st => st
  | e :: rest, st =>
    match procFilenames pat e.1 e.2 st with
    | (st1, true) => { st1 with messages := st1.messages ++ [invalidRegexMsg] }
    | (st1, false) => walkLoop pat rest st1

/-- `GetFiles.get_files(self, path_batch, regex)`: if the path exists, walk
it, filtering filenames through `re.search`; otherwise print that the path
does not exist. Either way, `return self.files` — the instance attribute,
which the method only ever appends to. -/
def get_files (fs : Filesystem) (pat : Pattern) (path_batch : String)
    (st : GFState) : GFState × List String :=
  if fs.pathExistsB path_batch then
    let st1 := walkLoop pat (fs.walk path_batch) st
    (st1, st1.files)
  else
    let st1 : GFState := { st with messages := st.messages ++ [doesNotExistMsg path_batch] }
    (st1, st1.files)

/-- The state of a freshly constructed `GetFiles` instance
(`self.files = []`, nothing printed yet). -/
def gf0 : GFState := ⟨[], [], []⟩

/-- Specification-side description of what one walk over `w` contributes:
for each `(dirpath, filenames)` entry, the joined paths of the filenames a
substring search for the pattern accepts, in traversal order. -/
def matchesOf (pat : Pattern) (w : List (String × List String)) : List String :=
  w.flatMap (fun e => (e.2.filter (fun fn => searchB pat.accept fn)).map (fun fn => pathJoin e.1 fn))

/-- All filenames a walk visits, in order. -/
def allFilenames (w : List (String × List String)) : List String :=
  w.flatMap (fun e => e.2)

/-- The first filename a walk visits, if any. -/
def firstFilename (w : List (String × List String)) : Option String :=
  (allFilenames w).head?

/-- Severity of one entry of an `lxml` `error_log`. -/
inductive Severity where
  | warning
  | error
  | fatal
deriving DecidableEq, Repr

/-- One structured diagnostic of the schema engine (an `error_log` entry):
location, severity, domain and message. -/
structure ValidationError where
  line : Nat
  column : Nat
  severity : Severity
  domain : String
  message : String
deriving DecidableEq, Repr

/-- Rendering of a severity in an `error_log` entry's string form. -/
def severityStr : Severity → String
  | .warning => "WARNING"
  | .error => "ERROR"
  | .fatal => "FATAL"

/-- `str` of a single `error_log` entry. -/
def strEntry (e : ValidationError) : String :=
  toString e.line ++ ":" ++ toString e.column ++ ":" ++ severityStr e.severity ++
    ":" ++ e.domain ++ ":" ++ e.message

/-- `str(error_log)`: the entries' string forms joined by newlines; the
empty log renders as the empty string. -/
def strLog (l : List ValidationError) : String :=
  String.intercalate "\n" (l.map strEntry)

/-- Whether a diagnostic's severity invalidates a document (`error` or
`fatal`; a bare warning does not). -/
def isInvalidating : Severity → Bool
  | .warning => false
  | .error => true
  | .fatal => true

/-- Number of diagnostics of severity `error` or `fatal` in a log. -/
def errFatalCount (l : List ValidationError) : Nat :=
  (l.filter (fun e => isInvalidating e.severity)).length

/-- An abstract parsed XML document (result of a successful `etree.parse`). -/
structure Doc where
  id : Nat
deriving DecidableEq, Repr

/-- An abstract compiled schema (result of a successful `etree.XMLSchema`). -/
structure Schema where
  id : Nat
deriving DecidableEq, Repr

/-- Outcome of `etree.parse(path)`: a document, an `OSError` (file missing
or unreadable — the only exception `validate_xml` catches), or an
`XMLSyntaxError` (content not well-formed XML — not an `OSError`). -/
inductive ParseResult where
  | ok (d : Doc)
  | ioError
  | malformed
deriving DecidableEq, Repr

/-- The `lxml.etree` oracle: what `etree.parse` yields for each path, what
`etree.XMLSchema` yields for a parsed schema document (`none` meaning it
raises `XMLSchemaParseError`), and, for `xsd.validate(doc)`, the returned
boolean together with the `error_log` left on the schema object by that
call. -/
structure World where
  parseFile : String → ParseResult
  compileSchema : Doc → Option Schema
  validateDoc : Schema → Doc → Bool × List ValidationError

/-- The per-file value stored by `batch_validate_xml.validate_xml`:
`[state, xsd.error_log]` with `state` the string `valid` or `invalid`. -/
structure VResult where
  state : String
  log : List ValidationError
deriving DecidableEq, Repr

/-- Python `dict` assignment `d[k] = v` on an insertion-ordered association
list: an existing key keeps its position and gets the new value; a new key
is appended at the end. -/
def dictInsert (k : String) (v : VResult) :
    List (String × VResult) → List (String × VResult)
  | [] => [(k, v)]
  | (k1, v1) :: rest =>
    if k1 = k then (k, v) :: rest else (k1, v1) :: dictInsert k v rest

/-- The entry `validate_xml` stores for one successfully parsed file:
key `os.path.basename(xmlfile)`, state from the boolean `xsd.validate`
returned, log the `error_log` of that call. -/
def mkEntry (w : World) (xsd : Schema) (f : String) (d : Doc) : String × VResult :=
  (basename f,
    ⟨if (w.validateDoc xsd d).1 then "valid" else "invalid", (w.validateDoc xsd d).2⟩)

/-- How the `for xmlfile in files` loop of `batch_validate_xml.validate_xml`
ends: normally; via an `OSError` from `etree.parse(xmlfile)` (propagates to
the surrounding `except (OSError)`); or via an uncaught `XMLSyntaxError`. -/
inductive LoopOutcome where
  | done (dict : List (String × VResult))
  | osError (dict : List (String × VResult))
  | crashed
deriving DecidableEq, Repr

/-- The `for xmlfile in files` loop of `batch_validate_xml.validate_xml`. -/
def validateLoop (w : World) (xsd : Schema) :
    List String → List (String × VResult) → LoopOutcome
  | [], acc => .done acc
  | f :: rest, acc =>
    match w.parseFile f with
    | .ok d =>
      validateLoop w xsd rest (dictInsert (mkEntry w xsd f d).1 (mkEntry w xsd f d).2 acc)
    | .ioError => .osError acc
    | .malformed => .crashed

/-- The message printed by the `except (OSError)` handler of
`validate_xml`. -/
def schemaLoadMsg (s : String) : String := s ++ " can not be loaded."

/-- Outcome of a call to `batch_validate_xml.validate_xml`: either it
returns the `validation_errors` dict (with whatever console messages were
printed), or an exception escapes it. -/
inductive VXOutcome where
  | ok (dict : List (String × VResult)) (msgs : List String)
  | raised (ename : String)
deriving DecidableEq, Repr

/-- `batch_validate_xml.validate_xml(files, schemaf)`: builds the schema
from `schemaf` and validates each file, all inside one
`try ... except (OSError)` whose handler prints the schema-load message and
falls through to `return validation_errors`. An `OSError` anywhere in the
block (schema parse or target-file parse) is caught; an `XMLSyntaxError` or
an `XMLSchemaParseError` is not, and escapes the function. -/
def validate_xml (w : World) (files : List String) (schemaf : String) : VXOutcome :=
  match w.parseFile schemaf with
  | .ioError => .ok [] [schemaLoadMsg schemaf]
  | .malformed => .raised "XMLSyntaxError"
  | .ok sd =>
    match w.compileSchema sd with
    | none => .raised "XMLSchemaParseError"
    | some xsd =>
      match validateLoop w xsd files [] with
      | .done dict => .ok dict []
      | .osError dict => .ok dict [schemaLoadMsg schemaf]
      | .crashed => .raised "XMLSyntaxError"

/-- The CSV header row written by `batch_validate_xml.write_errors`. -/
def csvHeader : List String := ["filename", "valid", "error"]

/-- The rows of the CSV artifact written by
`batch_validate_xml.write_errors`: the header row, then — when the dict is
non-empty — one row `[obj_id, error[0], str(error[1])]` per dict entry, in
dict (insertion) order. -/
def write_errors (ve : List (String × VResult)) : List (List String) :=
  csvHeader ::
    (if 0 < ve.length then ve.map (fun kv => [kv.1, kv.2.state, strLog kv.2.log]) else [])

/-- Outcome of `MainApplication.validate` in `batch_validate_xml.py`:
either the report rows written by `write_errors`, or an exception escaping
the handler. -/
inductive RunOutcome where
  | wrote (rows : List (List String))
  | raised (ename : String)
deriving DecidableEq, Repr

/-- `MainApplication.validate` of `batch_validate_xml.py` on a fresh
`GetFiles` instance: `get_files`, then `validate_xml` on the instance's
`files` list, then `write_errors` on its returned dict. An exception
escaping `validate_xml` aborts the handler before `write_errors` runs. -/
def mainValidate (w : World) (fs : Filesystem) (path_batch : String)
    (pat : Pattern) (schemaf : String) : RunOutcome :=
  match validate_xml w (get_files fs pat path_batch gf0).2 schemaf with
  | .ok dict _ => .wrote (write_errors dict)
  | .raised e => .raised e

/-- How the `for xmlfile in files` loop of
`validate_xml_0_0_4.validate_xml` ends (same exception structure as the
batch version, but the accumulator is the plain list
`validation_errors`). -/
inductive LoopV0Outcome where
  | done (logs : List (List ValidationError))
  | osError (logs : List (List ValidationError))
  | crashed
deriving DecidableEq, Repr

/-- The `for xmlfile in files` loop of `validate_xml_0_0_4.validate_xml`:
`xsd.validate(etree.parse(xmlfile))` followed by
`validation_errors.append(xsd.error_log)` — the log is appended for every
file that parses, whether or not it validates. -/
def validateLoopV0 (w : World) (xsd : Schema) :
    List String → List (List ValidationError) → LoopV0Outcome
  | [], acc => .done acc
  | f :: rest, acc =>
    match w.parseFile f with
    | .ok d => validateLoopV0 w xsd rest (acc ++ [(w.validateDoc xsd d).2])
    | .ioError => .osError acc
    | .malformed => .crashed

/-- Outcome of a call to `validate_xml_0_0_4.validate_xml`. -/
inductive V0Outcome where
  | ok (logs : List (List ValidationError)) (msgs : List String)
  | raised (ename : String)
deriving DecidableEq, Repr

/-- `validate_xml_0_0_4.validate_xml(files, xsdschema)`. -/
def validate_xml_v0 (w : World) (files : List String) (schemaf : String) : V0Outcome :=
  match w.parseFile schemaf with
  | .ioError => .ok [] [schemaLoadMsg schemaf]
  | .malformed => .raised "XMLSyntaxError"
  | .ok sd =>
    match w.compileSchema sd with
    | none => .raised "XMLSchemaParseError"
    | some xsd =>
      match validateLoopV0 w xsd files [] with
      | .done logs => .ok logs []
      | .osError logs => .ok logs [schemaLoadMsg schemaf]
      | .crashed => .raised "XMLSyntaxError"

/-- The text artifact written by `validate_xml_0_0_4.write_errors`: the
banner line, one block per non-empty `error_log`, and the two counts of the
trailing summary lines: `Validated succesfully: len(files) -
len(validation_errors)` (Python integer subtraction) and `Validation
errors: len(validation_errors)`. -/
structure TextReport where
  banner : String
  blocks : List String
  succeededCount : Int
  errorCount : Nat
deriving DecidableEq, Repr

/-- `validate_xml_0_0_4.write_errors(validation_errors, path_batch, files)`
(`ts` stands in for the `time.strftime` timestamp). -/
def write_errors_v0 (ts : String) (ve : List (List ValidationError))
    (files : List String) : TextReport :=
  { banner := "[validate_xml log generated " ++ ts ++ "]"
    blocks := (ve.filter (fun e => 0 < e.length)).map strLog
    succeededCount := (files.length : Int) - (ve.length : Int)
    errorCount := ve.length }

/-- The `lxml` schema-engine contract as the spec states it: the boolean
`xsd.validate` returns is `True` exactly when the accompanying `error_log`
holds no diagnostic of severity `error` or `fatal`. -/
def engineConsistent (w : World) : Prop :=
  ∀ s d, ((w.validateDoc s d).1 = true ↔ errFatalCount (w.validateDoc s d).2 = 0)

/-! Concrete fixtures used to evaluate the model on explicit inputs. -/

/-- A pattern string that does not compile. -/
def pBad : Pattern := ⟨false, fun _ => false⟩

/-- A compiled pattern matching every filename (it accepts the empty
substring, which every string contains). -/
def pAll : Pattern := ⟨true, fun m => m.isEmpty⟩

/-- A compiled pattern whose matcher accepts exactly the substring `met`
(so the search succeeds on filenames containing `met`). -/
def pMet : Pattern := ⟨true, fun m => m = String.toList "met"⟩

/-- A snapshot with one existing root `batch` holding one file `a.xml`. -/
def fsB : Filesystem :=
  ⟨fun p => p == "batch", fun p => if p == "batch" then [(p, ["a.xml"])] else []⟩

/-- A snapshot with root `batch` holding `a_mets.xml` and `notes.txt`, and a
subdirectory `sub` holding `b_mets.xml`. -/
def fs3 : Filesystem :=
  ⟨fun p => p == "batch",
   fun p =>
     if p == "batch" then
       [(p, ["a_mets.xml", "notes.txt"]), (pathJoin p "sub", ["b_mets.xml"])]
     else []⟩

/-- A snapshot in which no path exists. -/
def fs9 : Filesystem := ⟨fun _ => false, fun _ => []⟩

/-- A world in which every path parses and every document validates. -/
def wOk : World :=
  ⟨fun _ => .ok ⟨0⟩, fun _ => some ⟨0⟩, fun _ _ => (true, [])⟩

/-- A world in which `bad.xml` is not well-formed, `io.xml` is unreadable,
and everything else parses and validates. -/
def w1 : World :=
  ⟨fun f => if f = "bad.xml" then .malformed else if f = "io.xml" then .ioError else .ok ⟨0⟩,
   fun _ => some ⟨0⟩, fun _ _ => (true, [])⟩

/-- A world in which the schema file `s.xsd` is unreadable (`OSError`). -/
def w2 : World :=
  ⟨fun f => if f = "s.xsd" then .ioError else .ok ⟨0⟩,
   fun _ => some ⟨0⟩, fun _ _ => (true, [])⟩

/-- A world in which the schema file `s.xsd` is not well-formed XML. -/
def w2m : World :=
  ⟨fun f => if f = "s.xsd" then .malformed else .ok ⟨0⟩,
   fun _ => some ⟨0⟩, fun _ _ => (true, [])⟩

/-- A sample invalidating diagnostic. -/
def sampleErr : ValidationError :=
  ⟨7, 3, .error, "SCHEMASV", "element order violated"⟩

/-- A world in which `b.xml` parses to a document the engine rejects with
one `error`-severity diagnostic, while every other path parses to a
document the engine accepts; the returned boolean and the log agree. -/
def wMix : World :=
  ⟨fun f => if f = "b.xml" then .ok ⟨1⟩ else .ok ⟨0⟩,
   fun _ => some ⟨9⟩,
   fun _ d => if d.id = 0 then (true, []) else (false, [sampleErr])⟩

/-- A sample `validation_errors` dict: one valid file with an empty log,
one invalid file with one diagnostic. -/
def ve8 : List (String × VResult) :=
  [("a.xml", ⟨"valid", []⟩), ("b.xml", ⟨"invalid", [sampleErr]⟩)]

/-! Helper lemmas about the file-discovery loop. -/

theorem procFilenames_ok (pat : Pattern) (hP : pat.compiles = true) (dp : String) :
    ∀ (fns : List String) (st : GFState),
      procFilenames pat dp fns st =
        ({ st with
            files := st.files ++
              (fns.filter (fun fn => searchB pat.accept fn)).map (fun fn => pathJoin dp fn),
            fnameEvents := st.fnameEvents ++ fns }, false) := by
  intro fns
  induction fns with
  | nil => intro st; simp [procFilenames]
  | cons fn rest ih =>
    intro st
    by_cases h : searchB pat.accept fn = true
    · simp [procFilenames, hP, h, ih, List.filter_cons]
    · simp only [Bool.not_eq_true] at h
      simp [procFilenames, hP, h, ih, List.filter_cons]

theorem walkLoop_ok (pat : Pattern) (hP : pat.compiles = true) :
    ∀ (w : List (String × List String)) (st : GFState),
      walkLoop pat w st =
        { st with
            files := st.files ++ matchesOf pat w,
            fnameEvents := st.fnameEvents ++ allFilenames w } := by
  intro w
  induction w with
  | nil => intro st; simp [walkLoop, matchesOf, allFilenames]
  | cons e rest ih =>
    intro st
    simp [walkLoop, procFilenames_ok pat hP, ih, matchesOf, allFilenames]

theorem procFilenames_bad (pat : Pattern) (hP : pat.compiles = false) (dp : String) :
    ∀ (fns : List String) (st : GFState),
      procFilenames pat dp fns st =
        ({ st with fnameEvents := st.fnameEvents ++ fns.head?.toList }, !fns.isEmpty) := by
  intro fns st
  cases fns with
  | nil => simp [procFilenames]
  | cons fn rest => simp [procFilenames, hP]

theorem walkLoop_bad (pat : Pattern) (hP : pat.compiles = false) :
    ∀ (w : List (String × List String)) (st : GFState),
      walkLoop pat w st =
        { st with
            fnameEvents := st.fnameEvents ++ (firstFilename w).toList,
            messages := st.messages ++
              (if (firstFilename w).isSome then [invalidRegexMsg] else []) } := by
  intro w
  induction w with
  | nil => intro st; simp [walkLoop, firstFilename, allFilenames]
  | cons e rest ih =>
    intro st
    obtain ⟨dp, fns⟩ := e
    cases fns with
    | nil =>
      simp only [walkLoop, procFilenames_bad pat hP, List.head?_nil, Option.toList_none,
        List.append_nil, Bool.not_true, ih]
      rfl
    | cons fn fns1 =>
      simp [walkLoop, procFilenames_bad pat hP, firstFilename, allFilenames,
        List.flatMap_cons]

/-! Helper lemmas about the substring-search model. -/

theorem mem_prefixesL : ∀ (s t : List Char), t ∈ prefixesL s ↔ ∃ b, t ++ b = s := by
  intro s
  induction s with
  | nil =>
    intro t
    simp [prefixesL]
  | cons c cs ih =>
    intro t
    cases t with
    | nil => simp [prefixesL]
    | cons x xs =>
      simp only [prefixesL, List.mem_cons, List.mem_map]
      constructor
      · rintro (h | ⟨a, ha, hax⟩)
        · exact absurd h (by simp)
        · obtain ⟨b, hb⟩ := (ih a).mp ha
          obtain ⟨hcx, hax2⟩ := List.cons.inj hax
          subst hcx
          subst hax2
          exact ⟨b, by simp [hb]⟩
      · rintro ⟨b, hb⟩
        rw [List.cons_append] at hb
        obtain ⟨rfl, hb2⟩ := List.cons.inj hb
        exact Or.inr ⟨xs, (ih xs).mpr ⟨b, hb2⟩, rfl⟩

theorem mem_suffixesL : ∀ (s t : List Char), t ∈ suffixesL s ↔ ∃ a, a ++ t = s := by
  intro s
  induction s with
  | nil =>
    intro t
    simp [suffixesL]
  | cons c cs ih =>
    intro t
    simp only [suffixesL, List.mem_cons, ih]
    constructor
    · rintro (rfl | ⟨a, rfl⟩)
      · exact ⟨[], rfl⟩
      · exact ⟨c :: a, rfl⟩
    · rintro ⟨a, ha⟩
      cases a with
      | nil => exact Or.inl (by simpa using ha)
      | cons x a1 =>
        rw [List.cons_append] at ha
        obtain ⟨hxc, ha2⟩ := List.cons.inj ha
        exact Or.inr ⟨a1, ha2⟩

theorem searchB_eq_true_iff (accept : List Char → Bool) (s : String) :
    searchB accept s = true ↔
      ∃ a m b : List Char, s.toList = a ++ m ++ b ∧ accept m = true := by
  simp only [searchB, List.any_eq_true]
  constructor
  · rintro ⟨t, ht, m, hm, hacc⟩
    obtain ⟨a, ha⟩ := (mem_suffixesL _ t).mp ht
    obtain ⟨b, hb⟩ := (mem_prefixesL _ m).mp hm
    exact ⟨a, m, b, by rw [← ha, ← hb, List.append_assoc], hacc⟩
  · rintro ⟨a, m, b, hs, hacc⟩
    refine ⟨m ++ b,
      (mem_suffixesL _ _).mpr ⟨a, by rw [hs, List.append_assoc]⟩,
      m, (mem_prefixesL _ _).mpr ⟨b, rfl⟩, hacc⟩

/-- C3: on an existing root `D` and a pattern `P` that compiles, a call to
`get_files` on a fresh instance returns exactly the files the walk of `D`
visits whose base filename contains a substring match for `P` (the search
accepts a filename iff the matcher accepts some substring of it — nothing
anchors the match to the whole filename), joined to their directory paths,
and no other files. -/
theorem C3_locate_exact_matches (fs : Filesystem) (pat : Pattern) (D : String)
    (hD : fs.pathExistsB D = true) (hP : pat.compiles = true) :
    (get_files fs pat D gf0).2 = matchesOf pat (fs.walk D) ∧
    (∀ f : String, f ∈ (get_files fs pat D gf0).2 ↔
      ∃ dp fns fn, (dp, fns) ∈ fs.walk D ∧ fn ∈ fns ∧
        searchB pat.accept fn = true ∧ f = pathJoin dp fn) ∧
    (∀ fn : String, searchB pat.accept fn = true ↔
      ∃ a m b : List Char, fn.toList = a ++ m ++ b ∧ pat.accept m = true) := by
  have hmain : (get_files fs pat D gf0).2 = matchesOf pat (fs.walk D) := by
    simp [get_files, hD, walkLoop_ok pat hP, gf0]
  refine ⟨hmain, fun f => ?_, fun fn => searchB_eq_true_iff pat.accept fn⟩
  rw [hmain]
  simp only [matchesOf, List.mem_flatMap, List.mem_map, List.mem_filter]
  constructor
  · rintro ⟨⟨dp, fns⟩, he, fn, ⟨hfn, hsrch⟩, hjoin⟩
    exact ⟨dp, fns, fn, he, hfn, hsrch, hjoin.symm⟩
  · rintro ⟨dp, fns, fn, he, hfn, hsrch, hjoin⟩
    exact ⟨(dp, fns), he, fn, ⟨hfn, hsrch⟩, hjoin.symm⟩

/-- C3 witness: on the concrete snapshot `fs3` with the pattern whose
matcher accepts the substring `met`, the theorem applies and the returned
list evaluates to the two `_mets.xml` files (and not `notes.txt`). -/
theorem C3_locate_exact_matches_witness :
    (get_files fs3 pMet "batch" gf0).2 = matchesOf pMet (fs3.walk "batch") ∧
    (get_files fs3 pMet "batch" gf0).2 = ["batch/a_mets.xml", "batch/sub/b_mets.xml"] :=
  ⟨(C3_locate_exact_matches fs3 pMet "batch" rfl rfl).1, by decide⟩

/-- C4 counterexample: with a pattern that does not compile, on a root
holding one file, `get_files` emits one `fname` progress notification (not
zero) before `re.search` raises: traversal does begin and a filesystem
entry is examined, contradicting the claim that the invalid pattern is
rejected before any traversal with zero notifications. -/
theorem C4_counterexample :
    (get_files fsB pBad "batch" gf0).1.fnameEvents = ["a.xml"] ∧
    (get_files fsB pBad "batch" gf0).1.messages = [invalidRegexMsg] := by
  decide

/-- C4 amended: an invalid pattern is only detected when the first visited
filename is tested: the walk starts, one progress notification is emitted
for the first filename the walk visits (none if the tree holds no file, in
which case the bad pattern goes undetected and no message is printed), the
invalid-regex message is printed, the walk is then abandoned, and nothing
is ever appended to the instance's files list. -/
theorem C4_invalid_pattern_detected_late (fs : Filesystem) (pat : Pattern)
    (D : String) (st : GFState)
    (hD : fs.pathExistsB D = true) (hP : pat.compiles = false) :
    (get_files fs pat D st).2 = st.files ∧
    (get_files fs pat D st).1.files = st.files ∧
    (get_files fs pat D st).1.fnameEvents =
      st.fnameEvents ++ (firstFilename (fs.walk D)).toList ∧
    (get_files fs pat D st).1.messages =
      st.messages ++
        (if (firstFilename (fs.walk D)).isSome then [invalidRegexMsg] else []) := by
  simp [get_files, hD, walkLoop_bad pat hP]

/-- C4 witness: the amended theorem instantiated on the concrete snapshot
`fsB` and the non-compiling pattern. -/
theorem C4_invalid_pattern_detected_late_witness :
    (get_files fsB pBad "batch" gf0).2 = gf0.files ∧
    (get_files fsB pBad "batch" gf0).1.files = gf0.files ∧
    (get_files fsB pBad "batch" gf0).1.fnameEvents =
      gf0.fnameEvents ++ (firstFilename (fsB.walk "batch")).toList ∧
    (get_files fsB pBad "batch" gf0).1.messages =
      gf0.messages ++
        (if (firstFilename (fsB.walk "batch")).isSome then [invalidRegexMsg] else []) :=
  C4_invalid_pattern_detected_late fsB pBad "batch" gf0 rfl rfl

/-- C9: on a root path that does not exist, `get_files` only prints the
does-not-exist message: no walk entry is processed, no progress
notification is emitted, nothing is appended, and on a fresh instance the
returned match list is empty. -/
theorem C9_path_not_found (fs : Filesystem) (pat : Pattern) (D : String)
    (st : GFState) (hD : fs.pathExistsB D = false) :
    (get_files fs pat D st).1 = { st with messages := st.messages ++ [doesNotExistMsg D] } ∧
    (get_files fs pat D st).2 = st.files ∧
    (get_files fs pat D gf0).2 = [] ∧
    (get_files fs pat D gf0).1.fnameEvents = [] := by
  simp [get_files, hD, gf0]

/-- C9 witness: the theorem instantiated on the snapshot in which no path
exists. -/
theorem C9_path_not_found_witness :
    (get_files fs9 pAll "missing" gf0).1 =
      { gf0 with messages := gf0.messages ++ [doesNotExistMsg "missing"] } ∧
    (get_files fs9 pAll "missing" gf0).2 = gf0.files ∧
    (get_files fs9 pAll "missing" gf0).2 = [] ∧
    (get_files fs9 pAll "missing" gf0).1.fnameEvents = [] :=
  C9_path_not_found fs9 pAll "missing" gf0 rfl

/-- C10: `get_files` appends this call's matches to the instance's
persisting `files` list and returns that list, so a second call on the same
unchanged root returns every match twice. -/
theorem C10_files_accumulate (fs : Filesystem) (pat : Pattern) (D : String)
    (st : GFState) (hD : fs.pathExistsB D = true) (hP : pat.compiles = true) :
    (get_files fs pat D st).1.files = st.files ++ matchesOf pat (fs.walk D) ∧
    (get_files fs pat D st).2 = st.files ++ matchesOf pat (fs.walk D) ∧
    (get_files fs pat D ((get_files fs pat D gf0).1)).2 =
      (get_files fs pat D gf0).2 ++ (get_files fs pat D gf0).2 := by
  have h : ∀ st1 : GFState,
      (get_files fs pat D st1).1.files = st1.files ++ matchesOf pat (fs.walk D) ∧
      (get_files fs pat D st1).2 = st1.files ++ matchesOf pat (fs.walk D) := by
    intro st1
    constructor <;> simp [get_files, hD, walkLoop_ok pat hP]
  refine ⟨(h st).1, (h st).2, ?_⟩
  rw [(h _).2, (h gf0).1, (h gf0).2]
  simp [gf0]

/-- C10 witness: two calls on the same unchanged snapshot return the two
matching files twice, in order. -/
theorem C10_files_accumulate_witness :
    (get_files fs3 pMet "batch" ((get_files fs3 pMet "batch" gf0).1)).2 =
      (get_files fs3 pMet "batch" gf0).2 ++ (get_files fs3 pMet "batch" gf0).2 ∧
    (get_files fs3 pMet "batch" ((get_files fs3 pMet "batch" gf0).1)).2 =
      ["batch/a_mets.xml", "batch/sub/b_mets.xml",
       "batch/a_mets.xml", "batch/sub/b_mets.xml"] :=
  ⟨(C10_files_accumulate fs3 pMet "batch" gf0 rfl rfl).2.2, by decide⟩

/-! Helper lemmas about the validation loop and its dict accumulator. -/

theorem dictInsert_mem (k : String) (v : VResult) (kv : String × VResult) :
    ∀ l, kv ∈ dictInsert k v l → kv = (k, v) ∨ kv ∈ l := by
  intro l
  induction l with
  | nil =>
    intro h
    simp only [dictInsert, List.mem_singleton] at h
    exact Or.inl h
  | cons p rest ih =>
    intro h
    obtain ⟨k1, v1⟩ := p
    by_cases hk : k1 = k
    · simp only [dictInsert, if_pos hk, List.mem_cons] at h
      rcases h with h | h
      · exact Or.inl h
      · exact Or.inr (List.mem_cons_of_mem _ h)
    · simp only [dictInsert, if_neg hk, List.mem_cons] at h
      rcases h with h | h
      · exact Or.inr (by simp [h])
      · rcases ih h with h2 | h2
        · exact Or.inl h2
        · exact Or.inr (List.mem_cons_of_mem _ h2)

theorem dictInsert_notMem (k : String) (v : VResult) :
    ∀ l : List (String × VResult),
      (∀ kv ∈ l, kv.1 ≠ k) → dictInsert k v l = l ++ [(k, v)] := by
  intro l
  induction l with
  | nil => intro _; simp [dictInsert]
  | cons p rest ih =>
    intro hl
    obtain ⟨k1, v1⟩ := p
    have hk : k1 ≠ k := hl (k1, v1) (by simp)
    simp [dictInsert, hk, ih (fun kv hkv => hl kv (List.mem_cons_of_mem _ hkv))]

theorem validateLoop_mem (w : World) (xsd : Schema) :
    ∀ (files : List String) (acc dict : List (String × VResult)),
      (validateLoop w xsd files acc = .done dict ∨
        validateLoop w xsd files acc = .osError dict) →
      ∀ kv ∈ dict, kv ∈ acc ∨
        ∃ f d, f ∈ files ∧ w.parseFile f = .ok d ∧ kv = mkEntry w xsd f d := by
  intro files
  induction files with
  | nil =>
    intro acc dict h kv hkv
    rcases h with h | h
    · simp only [validateLoop, LoopOutcome.done.injEq] at h
      subst h
      exact Or.inl hkv
    · simp [validateLoop] at h
  | cons f rest ih =>
    intro acc dict h kv hkv
    rcases hpf : w.parseFile f with d | _ | _
    · rw [validateLoop, hpf] at h
      rcases ih _ _ h kv hkv with hacc | ⟨g, e, hg, hpe, hkve⟩
      · rcases dictInsert_mem _ _ kv _ hacc with heq | hacc2
        · exact Or.inr ⟨f, d, by simp, hpf, by simpa using heq⟩
        · exact Or.inl hacc2
      · exact Or.inr ⟨g, e, List.mem_cons_of_mem _ hg, hpe, hkve⟩
    · rw [validateLoop, hpf] at h
      rcases h with h | h
      · simp at h
      · simp only [LoopOutcome.osError.injEq] at h
        subst h
        exact Or.inl hkv
    · rw [validateLoop, hpf] at h
      rcases h with h | h <;> simp at h

theorem validateLoop_all_ok (w : World) (xsd : Schema) (docFn : String → Doc) :
    ∀ (files : List String) (acc : List (String × VResult)),
      (∀ f ∈ files, w.parseFile f = .ok (docFn f)) →
      (files.map basename).Nodup →
      (∀ kv ∈ acc, kv.1 ∉ files.map basename) →
      validateLoop w xsd files acc =
        .done (acc ++ files.map (fun f => mkEntry w xsd f (docFn f))) := by
  intro files
  induction files with
  | nil => intro acc _ _ _; simp [validateLoop]
  | cons f rest ih =>
    intro acc hp hnd hdisj
    have hnd2 : (∀ x ∈ rest, ¬basename x = basename f) ∧ (rest.map basename).Nodup := by
      simpa using hnd
    have hpf : w.parseFile f = .ok (docFn f) := hp f (by simp)
    simp only [validateLoop, hpf]
    have hins : dictInsert (mkEntry w xsd f (docFn f)).1 (mkEntry w xsd f (docFn f)).2 acc =
        acc ++ [mkEntry w xsd f (docFn f)] := by
      apply dictInsert_notMem
      intro kv hkv
      have hnotin := hdisj kv hkv
      intro hEq
      exact hnotin (by simp [mkEntry] at hEq; simp [hEq])
    rw [hins]
    have hrest := ih (acc ++ [mkEntry w xsd f (docFn f)])
      (fun g hg => hp g (List.mem_cons_of_mem _ hg))
      hnd2.2
      ?_
    · rw [hrest]
      simp
    · intro kv hkv
      rcases List.mem_append.mp hkv with hkv1 | hkv1
      · have := hdisj kv hkv1
        intro hmem
        exact this (by simp [hmem])
      · have hkve : kv = mkEntry w xsd f (docFn f) := by simpa using hkv1
        subst hkve
        intro hmem
        simp only [mkEntry, List.mem_map] at hmem
        obtain ⟨x, hx, heq⟩ := hmem
        exact hnd2.1 x hx heq

/-- C1: the code's actual behaviour on a batch containing a single bad
input file, with the schema loading fine. A not-well-formed file makes an
`XMLSyntaxError` escape `validate_xml` (only `OSError` is caught),
aborting the batch with no result for it or any later file; an unreadable
file (`OSError`) makes the loop stop, print the message that blames the
schema, and return only the results of the earlier files. No `unreadable`
status is ever produced. -/
theorem C1_bad_file_aborts_batch :
    validate_xml w1 ["a.xml", "bad.xml", "c.xml"] "s.xsd" = .raised "XMLSyntaxError" ∧
    validate_xml w1 ["a.xml", "io.xml", "c.xml"] "s.xsd" =
      .ok [("a.xml", ⟨"valid", []⟩)] [schemaLoadMsg "s.xsd"] := by
  decide

/-- C2 counterexample: with the schema file unreadable (`OSError`), on a
root holding one matching file, the run does not abort: `validate_xml`
catches the error and returns an empty dict, and the handler still writes
a report artifact — the header-only CSV — contradicting the claim that no
report artifact is written. -/
theorem C2_counterexample :
    w2.parseFile "s.xsd" = .ioError ∧
    mainValidate w2 fsB "batch" pAll "s.xsd" = .wrote [csvHeader] := by
  decide

/-- C2 amended: a missing or unreadable schema file (`OSError`) does not
abort the run: `validate_xml` returns an empty dict (so no
ValidationResult is produced) after printing the schema-load message, and
the run still writes a header-only report. Only a schema file whose
content is bad aborts the run with an uncaught exception
(`XMLSyntaxError` if it is not well-formed XML, `XMLSchemaParseError` if
it is not a valid XSD), in which case no report is written. -/
theorem C2_schema_load_failure (w : World) (fs : Filesystem) (D : String)
    (pat : Pattern) (schemaf : String) :
    (w.parseFile schemaf = .ioError →
      validate_xml w (get_files fs pat D gf0).2 schemaf = .ok [] [schemaLoadMsg schemaf] ∧
      mainValidate w fs D pat schemaf = .wrote [csvHeader]) ∧
    (w.parseFile schemaf = .malformed →
      mainValidate w fs D pat schemaf = .raised "XMLSyntaxError") ∧
    (∀ sd, w.parseFile schemaf = .ok sd → w.compileSchema sd = none →
      mainValidate w fs D pat schemaf = .raised "XMLSchemaParseError") := by
  refine ⟨fun h => ⟨?_, ?_⟩, fun h => ?_, fun sd h1 h2 => ?_⟩
  · simp [validate_xml, h]
  · simp [mainValidate, validate_xml, h, write_errors, csvHeader]
  · simp [mainValidate, validate_xml, h]
  · simp [mainValidate, validate_xml, h1, h2]

/-- C2 witness: the amended theorem instantiated on a world whose schema
file is not well-formed XML: the run aborts via the uncaught exception. -/
theorem C2_schema_load_failure_witness :
    mainValidate w2m fsB "batch" pAll "s.xsd" = .raised "XMLSyntaxError" :=
  (C2_schema_load_failure w2m fsB "batch" pAll "s.xsd").2.1 rfl

/-- C5 counterexample: two discovered files sharing the base filename
`a.xml` yield a single ValidationResult, not one each — the dict is keyed
by `os.path.basename`, so the second file overwrites the first. -/
theorem C5_counterexample :
    validate_xml wOk ["d1/a.xml", "d2/a.xml"] "s.xsd" =
      .ok [("a.xml", ⟨"valid", []⟩)] [] ∧
    ["d1/a.xml", "d2/a.xml"].length = 2 := by
  decide

/-- C5 amended: when the schema loads, every file parses, and the base
filenames are pairwise distinct, every FileEntry yields exactly one
ValidationResult and the rows appear in emission order; a duplicated base
filename instead collapses onto one row (the later file overwrites the
earlier one's entry in place). -/
theorem C5_one_row_per_distinct_basename (w : World) (files : List String)
    (schemaf : String) (sd : Doc) (xsd : Schema) (docFn : String → Doc)
    (hs : w.parseFile schemaf = .ok sd)
    (hc : w.compileSchema sd = some xsd)
    (hp : ∀ f ∈ files, w.parseFile f = .ok (docFn f))
    (hnd : (files.map basename).Nodup) :
    validate_xml w files schemaf =
      .ok (files.map (fun f => mkEntry w xsd f (docFn f))) [] := by
  simp [validate_xml, hs, hc,
    validateLoop_all_ok w xsd docFn files [] hp hnd (by simp)]

/-- C5 witness: two files with distinct base filenames yield exactly two
rows, in emission order. -/
theorem C5_one_row_per_distinct_basename_witness :
    validate_xml wOk ["d1/a.xml", "d2/b.xml"] "s.xsd" =
      .ok (["d1/a.xml", "d2/b.xml"].map (fun f => mkEntry wOk ⟨0⟩ f ⟨0⟩)) [] ∧
    validate_xml wOk ["d1/a.xml", "d2/b.xml"] "s.xsd" =
      .ok [("a.xml", ⟨"valid", []⟩), ("b.xml", ⟨"valid", []⟩)] [] :=
  ⟨C5_one_row_per_distinct_basename wOk ["d1/a.xml", "d2/b.xml"] "s.xsd" ⟨0⟩ ⟨0⟩
      (fun _ => ⟨0⟩) rfl rfl (by decide) (by decide),
    by decide⟩

/-- C6: the code's actual summary counts at the failing input: a batch of
one file that parses and validates successfully. One `error_log` is
appended per processed file whether or not it is valid, so the trailing
summary reports `Validated succesfully: 0` and `Validation errors: 1` —
not the claimed counts of successfully validated (1) versus errored (0)
files. (The source itself marks this: `TODO: This calc doesn't work
yet`.) -/
theorem C6_summary_counts_miscount :
    validate_xml_v0 wOk ["a.xml"] "s.xsd" = .ok [[]] [] ∧
    (wOk.validateDoc ⟨0⟩ ⟨0⟩).1 = true ∧
    (write_errors_v0 "ts" [[]] ["a.xml"]).succeededCount = 0 ∧
    (write_errors_v0 "ts" [[]] ["a.xml"]).errorCount = 1 := by
  decide

/-- C7: under the engine contract (the boolean `xsd.validate` returns is
`True` iff the call's `error_log` holds no diagnostic of severity `error`
or `fatal`), every entry `validate_xml` returns comes from a file of the
batch that parsed, carries the engine's diagnostics verbatim (in
encountered order), and has status `valid` iff its log has zero
error/fatal diagnostics — otherwise status `invalid`. -/
theorem C7_valid_iff_no_error_diagnostics (w : World) (files : List String)
    (schemaf : String) (sd : Doc) (xsd : Schema)
    (dict : List (String × VResult)) (msgs : List String)
    (hE : engineConsistent w)
    (hs : w.parseFile schemaf = .ok sd)
    (hc : w.compileSchema sd = some xsd)
    (hr : validate_xml w files schemaf = .ok dict msgs) :
    ∀ kv ∈ dict,
      ∃ f d, f ∈ files ∧ w.parseFile f = .ok d ∧
        kv.2.log = (w.validateDoc xsd d).2 ∧
        (kv.2.state = "valid" ∨ kv.2.state = "invalid") ∧
        (kv.2.state = "valid" ↔ errFatalCount kv.2.log = 0) := by
  intro kv hkv
  have hloop : validateLoop w xsd files [] = .done dict ∨
      validateLoop w xsd files [] = .osError dict := by
    simp only [validate_xml, hs, hc] at hr
    rcases hout : validateLoop w xsd files [] with d1 | d1 | _ <;> rw [hout] at hr
    · simp only [VXOutcome.ok.injEq] at hr
      exact Or.inl (by rw [hr.1])
    · simp only [VXOutcome.ok.injEq] at hr
      exact Or.inr (by rw [hr.1])
    · simp at hr
  rcases validateLoop_mem w xsd files [] dict hloop kv hkv with hacc | ⟨f, d, hf, hpf, hkve⟩
  · simp at hacc
  · subst hkve
    refine ⟨f, d, hf, hpf, rfl, ?_, ?_⟩
    · by_cases hb : (w.validateDoc xsd d).1 = true <;> simp [mkEntry, hb]
    · by_cases hb : (w.validateDoc xsd d).1 = true
      · simp only [mkEntry, hb, if_true]
        simpa using (hE xsd d).mp hb
      · simp only [mkEntry, hb, if_false]
        constructor
        · intro hcontra
          exact absurd hcontra (by decide)
        · intro hzero
          exact absurd ((hE xsd d).mpr hzero) hb

/-- C7 witness: in the mixed world, the entry for `b.xml` (rejected by the
engine with one error-severity diagnostic) satisfies the conclusion. -/
theorem C7_valid_iff_no_error_diagnostics_witness :
    ∃ f d, f ∈ ["a.xml", "b.xml"] ∧ wMix.parseFile f = .ok d ∧
      (VResult.mk "invalid" [sampleErr]).log = (wMix.validateDoc ⟨9⟩ d).2 ∧
      ((VResult.mk "invalid" [sampleErr]).state = "valid" ∨
        (VResult.mk "invalid" [sampleErr]).state = "invalid") ∧
      ((VResult.mk "invalid" [sampleErr]).state = "valid" ↔
        errFatalCount (VResult.mk "invalid" [sampleErr]).log = 0) :=
  C7_valid_iff_no_error_diagnostics wMix ["a.xml", "b.xml"] "s.xsd" ⟨0⟩ ⟨9⟩
    [("a.xml", ⟨"valid", []⟩), ("b.xml", ⟨"invalid", [sampleErr]⟩)] []
    (by
      intro s d
      by_cases h : d.id = 0 <;>
        simp [wMix, h, errFatalCount, isInvalidating, sampleErr])
    rfl rfl (by decide)
    ("b.xml", ⟨"invalid", [sampleErr]⟩) (by decide)

/-- C8: for every dict of results whose states come from `validate_xml`
(each `valid` or `invalid`), the CSV rows are the header
`filename,valid,error` followed by exactly one row per entry, in order,
whose second field is that state and whose third field is the stringified
diagnostic list — the empty string when the log is empty. This includes
the empty dict, which yields the header alone. -/
theorem C8_csv_structure (ve : List (String × VResult))
    (hstates : ∀ kv ∈ ve, kv.2.state = "valid" ∨ kv.2.state = "invalid") :
    write_errors ve =
      csvHeader :: ve.map (fun kv => [kv.1, kv.2.state, strLog kv.2.log]) ∧
    (∀ row ∈ (write_errors ve).tail,
      ∃ kv, kv ∈ ve ∧ row = [kv.1, kv.2.state, strLog kv.2.log] ∧
        (kv.2.state = "valid" ∨ kv.2.state = "invalid")) ∧
    strLog [] = "" := by
  have h1 : write_errors ve =
      csvHeader :: ve.map (fun kv => [kv.1, kv.2.state, strLog kv.2.log]) := by
    cases ve with
    | nil => simp [write_errors]
    | cons kv rest => simp [write_errors]
  refine ⟨h1, ?_, rfl⟩
  rw [h1]
  intro row hrow
  simp only [List.tail_cons, List.mem_map] at hrow
  obtain ⟨kv, hkv, hroweq⟩ := hrow
  exact ⟨kv, hkv, hroweq.symm, hstates kv hkv⟩

/-- C8 witness: the theorem applied to the two-entry sample dict, together
with the concrete rows it produces. -/
theorem C8_csv_structure_witness :
    write_errors ve8 =
      csvHeader :: ve8.map (fun kv => [kv.1, kv.2.state, strLog kv.2.log]) ∧
    write_errors ve8 = [["filename", "valid", "error"],
      ["a.xml", "valid", ""], ["b.xml", "invalid", strEntry sampleErr]] :=
  ⟨(C8_csv_structure ve8 (by decide)).1, by decide⟩

end VX
